import Mathlib

/-!
Shallow embedding of `src/r2r/core/logging/kv_logger.py`.

The module provides three key/value logging providers (SQLite-backed
`LocalKVLoggingProvider`, `PostgresKVLoggingProvider`, Redis-backed
`RedisKVLoggingProvider`), a process-wide facade (`KVLoggingSingleton`) and a
log-mining routine (`process_logs`).

Modelling conventions:
* machine state is explicit: each provider method is a function from a state
  record (the contents of its tables / key spaces) and its arguments to a new
  state and/or an `Except PyErr` result;
* Python exceptions are the `PyErr` type; `raise` is `.error`;
* UUIDs cross every store boundary as canonical text, and every id written by
  this module is produced by `str(log_id)`, so `uuid.UUID(..)`/`str(..)` round
  trips are modelled as the identity on `String`;
* SQL `DATETIME` values produced by `datetime('now')` / `NOW()` are opaque
  text in the fixed `"%Y-%m-%d %H:%M:%S"`-style rendering, whose lexicographic
  order coincides with chronological order, so `ORDER BY timestamp DESC` is a
  sort by the string order `strLtB` below; the write clock is passed to each
  write operation as an explicit `now` argument;
* Redis stores floats `datetime.now().timestamp()`; those timestamps are `Rat`;
* the JSON values this module writes to Redis are read back through
  `json.dumps`/`json.loads`, a round trip modelled as the identity on the
  structured entry.
-/

/-- Python exceptions that the embedded code can raise. -/
inductive PyErr where
  | valueError (msg : String)
  | typeError (msg : String)
  | attributeError (msg : String)
  | keyError (msg : String)
  | jsonDecodeError (msg : String)
  | integrityError (msg : String)
  | interfaceError (msg : String)
deriving DecidableEq, Repr

/-! ### Character and string helpers -/

/-- Decides whether the character list `pat` occurs at the start of `hay`. -/
def leadMatches : List Char → List Char → Bool
  | [], _ => true
  | _ :: _, [] => false
  | p :: ps, h :: hs => p == h && leadMatches ps hs

/-- Decides whether `pat` occurs as a contiguous sublist of `hay`. -/
def subContains (hay pat : List Char) : Bool :=
  match hay with
  | [] => pat.isEmpty
  | _ :: t => leadMatches pat hay || subContains t pat

/-- Python substring containment: `pat in s`. -/
def strContains (s pat : String) : Bool :=
  subContains s.data pat.data

/-- Strict lexicographic order on character lists (by code point), the order
underlying both SQLite text comparison and Python string comparison. -/
def charsLtB : List Char → List Char → Bool
  | [], [] => false
  | [], _ :: _ => true
  | _ :: _, [] => false
  | a :: as, b :: bs =>
    if a.toNat < b.toNat then true
    else if b.toNat < a.toNat then false
    else charsLtB as bs

/-- Strict string order used for `ORDER BY timestamp DESC` on text timestamps. -/
def strLtB (a b : String) : Bool := charsLtB a.data b.data

/-- Reflexive string order derived from `strLtB`. -/
def strLeB (a b : String) : Bool := !(strLtB b a)

/-- Python truthiness of an `Optional[str]`: `None` and `""` are falsy. -/
def optTruthy : Option String → Bool
  | none => false
  | some s => !(s == "")

/-- Python truthiness of an `Optional[float]`: `None` and `0.0` are falsy. -/
def ratTruthy : Option Rat → Bool
  | none => false
  | some q => decide (q ≠ 0)

/-! ### The error-code pattern of `process_logs`

`re.findall(r'\b\d{3}\b', message)` finds every three-digit token that is
delimited by word boundaries.  Over ASCII input a match is exactly a maximal
run of word characters (`[A-Za-z0-9_]`) that consists of three digits. -/

/-- ASCII word character, as matched by the regex class backslash-w. -/
def wordChar (c : Char) : Bool := c.isAlphanum || c == '_'

/-- Splits a character list into its maximal runs of word characters
(`cur` holds the reversed run being accumulated). -/
def wordRunsAux (cur : List Char) : List Char → List (List Char)
  | [] => if cur.isEmpty then [] else [cur.reverse]
  | c :: rest =>
    if wordChar c then wordRunsAux (c :: cur) rest
    else if cur.isEmpty then wordRunsAux [] rest
    else cur.reverse :: wordRunsAux [] rest

/-- Maximal word-character runs of a character list. -/
def wordRuns (cs : List Char) : List (List Char) := wordRunsAux [] cs

/-- The last match of the three-digit-token pattern in `s`
(`re.findall(..)[-1]`), or `none` when the pattern does not match. -/
def lastTripleDigit (s : String) : Option String :=
  (((wordRuns s.data).filter
      (fun r => r.length == 3 && r.all (fun c => c.isDigit))).getLast?).map
    (fun r => String.mk r)

/-! ### `datetime.strptime(_, "%Y-%m-%d %H:%M:%S").date()` -/

/-- Numeric value of a decimal digit character. -/
def digitVal (c : Char) : Nat := c.toNat - 48

/-- Numeric value of a two-digit field. -/
def twoDigits (a b : Char) : Nat := 10 * digitVal a + digitVal b

/-- Gregorian leap-year rule, as used by `datetime`. -/
def isLeapYear (y : Nat) : Bool :=
  (y % 4 == 0 && !(y % 100 == 0)) || y % 400 == 0

/-- Number of days of month `m` of year `y`. -/
def daysInMonth (y m : Nat) : Nat :=
  if m == 2 then (if isLeapYear y then 29 else 28)
  else if m == 4 || m == 6 || m == 9 || m == 11 then 30
  else 31

/-- `datetime.strptime(s, "%Y-%m-%d %H:%M:%S").date()`: requires the exact
fixed shape (four-digit year) with calendar-valid fields, and returns the date
portion; any mismatch raises `ValueError`. -/
def strptimeDate (s : String) : Except PyErr String :=
  match s.data with
  | [y1, y2, y3, y4, '-', m1, m2, '-', d1, d2, ' ',
     h1, h2, ':', n1, n2, ':', s1, s2] =>
    if ([y1, y2, y3, y4, m1, m2, d1, d2, h1, h2, n1, n2, s1, s2].all
          (fun c => c.isDigit)) then
      let y := 1000 * digitVal y1 + 100 * digitVal y2 + 10 * digitVal y3
                 + digitVal y4
      let mo := twoDigits m1 m2
      let d := twoDigits d1 d2
      if 1 ≤ y && 1 ≤ mo && mo ≤ 12 && 1 ≤ d && d ≤ daysInMonth y mo
           && twoDigits h1 h2 ≤ 23 && twoDigits n1 n2 ≤ 59
           && twoDigits s1 s2 ≤ 59 then
        .ok (String.mk [y1, y2, y3, y4, '-', m1, m2, '-', d1, d2])
      else .error (.valueError "time data does not match format")
    else .error (.valueError "time data does not match format")
  | _ => .error (.valueError "time data does not match format")

/-! ### A model of `json.loads` -/

/-- JSON values, as produced by `json.loads` (numbers as exact rationals). -/
inductive Json where
  | null
  | bool (b : Bool)
  | num (q : Rat)
  | str (s : String)
  | arr (xs : List Json)
  | obj (fields : List (String × Json))

/-- The left brace character. -/
def braceL : Char := Char.ofNat 123

/-- The right brace character. -/
def braceR : Char := Char.ofNat 125

/-- JSON insignificant whitespace. -/
def jsonWs (c : Char) : Bool := c == ' ' || c == '\t' || c == '\n' || c == '\r'

/-- Drops leading JSON whitespace. -/
def skipWs (cs : List Char) : List Char := cs.dropWhile jsonWs

/-- Value of a hexadecimal digit character, if any. -/
def hexVal (c : Char) : Option Nat :=
  if c.isDigit then some (c.toNat - 48)
  else if 97 ≤ c.toNat && c.toNat ≤ 102 then some (c.toNat - 87)
  else if 65 ≤ c.toNat && c.toNat ≤ 70 then some (c.toNat - 55)
  else none

/-- Body of a JSON string after the opening quote: accumulates decoded
characters (reversed) until the closing quote; escape sequences follow the
JSON grammar, and raw control characters are invalid. -/
def parseStringBody (acc : List Char) : List Char → Option (String × List Char)
  | [] => none
  | '"' :: rest => some (String.mk acc.reverse, rest)
  | '\\' :: e :: rest =>
    if e == '"' then parseStringBody ('"' :: acc) rest
    else if e == '\\' then parseStringBody ('\\' :: acc) rest
    else if e == '/' then parseStringBody ('/' :: acc) rest
    else if e == 'n' then parseStringBody ('\n' :: acc) rest
    else if e == 't' then parseStringBody ('\t' :: acc) rest
    else if e == 'r' then parseStringBody ('\r' :: acc) rest
    else if e == 'b' then parseStringBody (Char.ofNat 8 :: acc) rest
    else if e == 'f' then parseStringBody (Char.ofNat 12 :: acc) rest
    else if e == 'u' then
      match rest with
      | h1 :: h2 :: h3 :: h4 :: rest2 =>
        match hexVal h1, hexVal h2, hexVal h3, hexVal h4 with
        | some a, some b, some c, some d =>
          parseStringBody (Char.ofNat (4096 * a + 256 * b + 16 * c + d) :: acc)
            rest2
        | _, _, _, _ => none
      | _ => none
    else none
  | c :: rest =>
    if c.toNat < 32 then none else parseStringBody (c :: acc) rest

/-- Splits the longest leading run of decimal digits. -/
def takeDigits (cs : List Char) : List Char × List Char :=
  (cs.takeWhile (fun c => c.isDigit), cs.dropWhile (fun c => c.isDigit))

/-- Natural number denoted by a digit run. -/
def digitsToNat (ds : List Char) : Nat :=
  ds.foldl (fun acc c => 10 * acc + digitVal c) 0

/-- Optional exponent part `e`/`E` with optional sign. -/
def parseExpPart (cs : List Char) : Option (Int × List Char) :=
  match cs with
  | 'e' :: r | 'E' :: r =>
    let (neg, r1) := match r with
      | '-' :: r2 => (true, r2)
      | '+' :: r2 => (false, r2)
      | _ => (false, r)
    let (ds, r2) := takeDigits r1
    if ds.isEmpty then none
    else some ((if neg then -(digitsToNat ds : Int) else (digitsToNat ds : Int)), r2)
  | _ => some (0, cs)

/-- Assembles a rational from sign, integer digits, fraction digits and
decimal exponent. -/
def assembleNumber (neg : Bool) (ip fp : List Char) (ex : Int) : Rat :=
  let mRaw : Int := (digitsToNat ip * 10 ^ fp.length + digitsToNat fp : Nat)
  let m : Int := if neg then -mRaw else mRaw
  if 0 ≤ ex then mkRat (m * 10 ^ ex.toNat) (10 ^ fp.length)
  else mkRat m (10 ^ (fp.length + ex.natAbs))

/-- JSON number: optional minus, integer digits without leading zeros,
optional fraction, optional exponent. -/
def parseNumber (cs : List Char) : Option (Rat × List Char) :=
  let (neg, cs1) := match cs with
    | '-' :: r => (true, r)
    | _ => (false, cs)
  let (ip, cs2) := takeDigits cs1
  if ip.isEmpty then none
  else if 1 < ip.length && ip.headD ' ' == '0' then none
  else
    match cs2 with
    | '.' :: r =>
      let (fp, cs3) := takeDigits r
      if fp.isEmpty then none
      else
        match parseExpPart cs3 with
        | some (ex, cs4) => some (assembleNumber neg ip fp ex, cs4)
        | none => none
    | _ =>
      match parseExpPart cs2 with
      | some (ex, cs4) => some (assembleNumber neg ip [] ex, cs4)
      | none => none

mutual

/-- Parses one JSON value (fuelled; the fuel chosen in `jsonLoads` always
suffices because every recursion step consumes input). -/
def parseVal : Nat → List Char → Option (Json × List Char)
  | 0, _ => none
  | Nat.succ fuel, cs =>
    match skipWs cs with
    | [] => none
    | 'n' :: 'u' :: 'l' :: 'l' :: rest => some (.null, rest)
    | 't' :: 'r' :: 'u' :: 'e' :: rest => some (.bool true, rest)
    | 'f' :: 'a' :: 'l' :: 's' :: 'e' :: rest => some (.bool false, rest)
    | '"' :: rest => (parseStringBody [] rest).map (fun p => (.str p.1, p.2))
    | '[' :: rest =>
      (match skipWs rest with
       | ']' :: rest2 => some (.arr [], rest2)
       | rest2 => (parseElems fuel rest2).map (fun p => (.arr p.1, p.2)))
    | c :: rest =>
      if c == braceL then
        match skipWs rest with
        | [] => none
        | c2 :: rest2 =>
          if c2 == braceR then some (.obj [], rest2)
          else (parseFields fuel (c2 :: rest2)).map (fun p => (.obj p.1, p.2))
      else if c.isDigit || c == '-' then
        (parseNumber (c :: rest)).map (fun p => (.num p.1, p.2))
      else none

/-- Parses the non-empty element list of a JSON array, up to `]`. -/
def parseElems : Nat → List Char → Option (List Json × List Char)
  | 0, _ => none
  | Nat.succ fuel, cs =>
    match parseVal fuel cs with
    | none => none
    | some (v, rest) =>
      match skipWs rest with
      | ',' :: rest2 => (parseElems fuel rest2).map (fun p => (v :: p.1, p.2))
      | ']' :: rest2 => some ([v], rest2)
      | _ => none

/-- Parses the non-empty member list of a JSON object, up to the closing
brace. -/
def parseFields : Nat → List Char → Option (List (String × Json) × List Char)
  | 0, _ => none
  | Nat.succ fuel, cs =>
    match skipWs cs with
    | '"' :: rest =>
      (match parseStringBody [] rest with
       | none => none
       | some (k, rest2) =>
         match skipWs rest2 with
         | ':' :: rest3 =>
           (match parseVal fuel rest3 with
            | none => none
            | some (v, rest4) =>
              match skipWs rest4 with
              | ',' :: rest5 =>
                (parseFields fuel rest5).map (fun p => ((k, v) :: p.1, p.2))
              | c :: rest5 =>
                if c == braceR then some ([(k, v)], rest5) else none
              | [] => none)
         | _ => none)
    | _ => none

end

/-- `json.loads`: parse one JSON document, requiring only whitespace after
it; failures raise `json.JSONDecodeError`. -/
def jsonLoads (s : String) : Except PyErr Json :=
  match parseVal (2 * s.data.length + 2) s.data with
  | some (v, rest) =>
    if (skipWs rest).isEmpty then .ok v
    else .error (.jsonDecodeError "Extra data")
  | none => .error (.jsonDecodeError "Expecting value")

/-- Python `float(s)` on the forms used here: optional surrounding
whitespace, optional sign, then digits with optional fraction, a bare
fraction, and an optional exponent (the special forms `inf`, `nan` and
underscore separators are outside this model). -/
def pyFloat (s : String) : Option Rat :=
  let cs := s.data.dropWhile jsonWs
  let (neg, cs1) := match cs with
    | '-' :: r => (true, r)
    | '+' :: r => (false, r)
    | _ => (false, cs)
  let (ip, cs2) := takeDigits cs1
  let withFrac : Option (List Char × List Char) := match cs2 with
    | '.' :: r =>
      let (fp, cs3) := takeDigits r
      if ip.isEmpty && fp.isEmpty then none else some (fp, cs3)
    | _ => if ip.isEmpty then none else some ([], cs2)
  match withFrac with
  | none => none
  | some (fp, cs3) =>
    match parseExpPart cs3 with
    | none => none
    | some (ex, cs4) =>
      if (cs4.dropWhile jsonWs).isEmpty then some (assembleNumber neg ip fp ex)
      else none

/-! ### Shared data model -/

/-- `RunInfo(run_id, log_type)` (UUIDs as canonical text). -/
structure RunInfo where
  run_id : String
  log_type : String
deriving DecidableEq, Repr

/-- One row of the `logs` table: `(timestamp, log_id, key, value)`. -/
structure LogRow where
  timestamp : String
  log_id : String
  key : String
  value : String
deriving DecidableEq, Repr

/-- One row of the `logs_pipeline_info` table:
`(timestamp, log_id UNIQUE, log_type)`. -/
structure InfoRow where
  timestamp : String
  log_id : String
  log_type : String
deriving DecidableEq, Repr

/-- One row of the `throughput_logs` table.  `datetime(?, 'unixepoch')`
truncates the float argument to whole seconds and renders it as text whose
order matches the numeric order, so the stored instant is modelled as the
truncated second count. -/
structure ThroughputRow where
  timestamp : Int
  num_requests : Int
  request_type : String
deriving DecidableEq, Repr

/-- Contents of the SQLite database behind `LocalKVLoggingProvider`. -/
structure LocalState where
  logs : List LogRow
  logInfo : List InfoRow
  throughput : List ThroughputRow
deriving DecidableEq, Repr

/-- Contents of the Postgres database behind `PostgresKVLoggingProvider`. -/
structure PgState where
  logs : List LogRow
  logInfo : List InfoRow
  throughput : List ThroughputRow
deriving DecidableEq, Repr

/-! ### Orders used by `ORDER BY timestamp DESC`

`insertionSort` with these reflexive relations is a stable model of the SQL
sort; the strict variants support uniqueness arguments. -/

/-- Newest-first order on event rows. -/
def rowGe (a b : LogRow) : Prop := strLeB b.timestamp a.timestamp = true

/-- Strict newest-first order on event rows. -/
def rowGt (a b : LogRow) : Prop := strLtB b.timestamp a.timestamp = true

/-- Newest-first order on ranked event rows. -/
def pairRowGe (a b : LogRow × Nat) : Prop :=
  strLeB b.1.timestamp a.1.timestamp = true

/-- Strict newest-first order on ranked event rows. -/
def pairRowGt (a b : LogRow × Nat) : Prop :=
  strLtB b.1.timestamp a.1.timestamp = true

/-- Newest-first order on info rows. -/
def infoRowGe (a b : InfoRow) : Prop := strLeB b.timestamp a.timestamp = true

instance : DecidableRel rowGe := fun _ _ =>
  inferInstanceAs (Decidable (_ = true))

instance : DecidableRel rowGt := fun _ _ =>
  inferInstanceAs (Decidable (_ = true))

instance : DecidableRel pairRowGe := fun _ _ =>
  inferInstanceAs (Decidable (_ = true))

instance : DecidableRel pairRowGt := fun _ _ =>
  inferInstanceAs (Decidable (_ = true))

instance : DecidableRel infoRowGe := fun _ _ =>
  inferInstanceAs (Decidable (_ = true))

/-- `ORDER BY timestamp DESC` on event rows. -/
def sortRowsDesc (l : List LogRow) : List LogRow := l.insertionSort rowGe

/-- `ORDER BY timestamp DESC` on ranked event rows. -/
def sortPairsDesc (l : List (LogRow × Nat)) : List (LogRow × Nat) :=
  l.insertionSort pairRowGe

/-- `ORDER BY timestamp DESC` on info rows. -/
def sortInfoDesc (l : List InfoRow) : List InfoRow := l.insertionSort infoRowGe

/-- `ROW_NUMBER() OVER (PARTITION BY log_id ORDER BY timestamp DESC)` of row
`e` among `base`, assuming distinct timestamps within each partition: one plus
the number of strictly newer rows of the same run. -/
def rowNumberDesc (base : List LogRow) (e : LogRow) : Nat :=
  1 + (base.filter
        (fun y => y.log_id == e.log_id && strLtB e.timestamp y.timestamp)).length

/-! ### `LocalKVLoggingProvider` (aiosqlite) -/

namespace LocalKV

/-- `log(log_id, key, value, is_info_log)`: validates info keys, then inserts
one row stamped `datetime('now')` (the explicit `now` argument).  The
`logs_pipeline_info.log_id` column is `UNIQUE`, so a second info row for the
same run raises `IntegrityError`.
Source message: "Info log keys must contain the text 'type'". -/
def log (st : LocalState) (now : String) (log_id key value : String)
    (is_info_log : Bool) : LocalState × Except PyErr Unit :=
  if is_info_log then
    if !(strContains key "type") then
      (st, .error (.valueError "Info log keys must contain the text type"))
    else if st.logInfo.any (fun r => r.log_id == log_id) then
      (st, .error (.integrityError "UNIQUE constraint failed"))
    else
      ({st with logInfo := st.logInfo ++ [⟨now, log_id, value⟩]}, .ok ())
  else
    ({st with logs := st.logs ++ [⟨now, log_id, key, value⟩]}, .ok ())

/-- `get_run_info(limit, log_type_filter)`: optional exact-match filter
(Python truthiness: `None` and `""` disable it), newest first, `LIMIT`. -/
def get_run_info (st : LocalState) (limit : Nat)
    (log_type_filter : Option String) : List RunInfo :=
  let rows :=
    if optTruthy log_type_filter then
      st.logInfo.filter (fun r => r.log_type == log_type_filter.getD "")
    else st.logInfo
  ((sortInfoDesc rows).take limit).map (fun r => ⟨r.log_id, r.log_type⟩)

/-- `get_logs(run_ids, limit_per_run)`: raises on an empty id list, then runs
the windowed top-N-per-run query and orders the result newest first; each
returned row carries its window rank `rn` (the query selects it too). -/
def get_logs (st : LocalState) (run_ids : List String) (limit_per_run : Nat) :
    Except PyErr (List (LogRow × Nat)) :=
  if run_ids.isEmpty then .error (.valueError "No run ids provided.")
  else
    let filtered := st.logs.filter (fun e => run_ids.contains e.log_id)
    let ranked := filtered.map (fun e => (e, rowNumberDesc filtered e))
    let kept := ranked.filter (fun p => p.2 ≤ limit_per_run)
    .ok (sortPairsDesc kept)

/-- `aiosqlite.Connection.execute(sql, parameters)` accepts the SQL text plus
at most one parameters sequence; `log_throughput` passes its three values as
separate positional arguments, which raises `TypeError` before any write. -/
def executeExtraPositional (extraArgs : Nat) : Except PyErr Unit :=
  if extraArgs ≤ 1 then .ok ()
  else .error (.typeError
    "execute() takes from 2 to 3 positional arguments but 5 were given")

/-- `log_throughput(timestamp, num_requests, request_type)`: the `execute`
call receives three extra positional arguments (not one tuple), so it always
raises `TypeError`; the insert in the success branch is unreachable. -/
def log_throughput (st : LocalState) (timestamp : Rat) (num_requests : Int)
    (request_type : String) : LocalState × Except PyErr Unit :=
  match executeExtraPositional 3 with
  | .error e => (st, .error e)
  | .ok _ =>
    ({st with throughput :=
        st.throughput ++ [⟨timestamp.floor, num_requests, request_type⟩]},
     .ok ())

/-- `get_throughput_data(start_time, end_time)`: when both float bounds are
truthy (non-`None`, non-zero), keeps rows with
`timestamp BETWEEN datetime(start) AND datetime(end)` (a closed interval on
truncated seconds); otherwise returns the whole series. -/
def get_throughput_data (st : LocalState) (start_time end_time : Option Rat) :
    List ThroughputRow :=
  if ratTruthy start_time && ratTruthy end_time then
    st.throughput.filter (fun r =>
      decide ((start_time.getD 0).floor ≤ r.timestamp) &&
      decide (r.timestamp ≤ (end_time.getD 0).floor))
  else st.throughput

end LocalKV

/-! ### `PostgresKVLoggingProvider` (asyncpg) -/

namespace PostgresKV

/-- `log(log_id, key, value, is_info_log)`: same validation and row shapes as
the local provider, stamped `NOW()`; `logs_pipeline_info.log_id` is `UNIQUE`.
Source message: "Info log key must contain the string `type`.". -/
def log (st : PgState) (now : String) (log_id key value : String)
    (is_info_log : Bool) : PgState × Except PyErr Unit :=
  if is_info_log then
    if !(strContains key "type") then
      (st, .error (.valueError "Info log key must contain the string type."))
    else if st.logInfo.any (fun r => r.log_id == log_id) then
      (st, .error (.integrityError "duplicate key value violates unique constraint"))
    else
      ({st with logInfo := st.logInfo ++ [⟨now, log_id, value⟩]}, .ok ())
  else
    ({st with logs := st.logs ++ [⟨now, log_id, key, value⟩]}, .ok ())

/-- `get_run_info(limit, log_type_filter)`: the query text always ends in
`ORDER BY timestamp DESC LIMIT $2`, so the prepared statement takes two bind
parameters, but `params` holds only `[limit]` unless the filter is truthy —
asyncpg then rejects the call ("the server expects 2 arguments for this
query, 1 was passed") and no rows are returned. -/
def get_run_info (st : PgState) (limit : Nat)
    (log_type_filter : Option String) : Except PyErr (List RunInfo) :=
  let nParams := (if optTruthy log_type_filter then 1 else 0) + 1
  if nParams ≠ 2 then
    .error (.interfaceError
      "the server expects 2 arguments for this query, 1 was passed")
  else
    let rows :=
      if optTruthy log_type_filter then
        st.logInfo.filter (fun r => r.log_type == log_type_filter.getD "")
      else st.logInfo
    .ok (((sortInfoDesc rows).take limit).map (fun r => ⟨r.log_id, r.log_type⟩))

/-- `get_logs(run_ids, limit_per_run)`: identical window query to the local
provider (`log_id::text IN (..)`), newest first, rank column included. -/
def get_logs (st : PgState) (run_ids : List String) (limit_per_run : Nat) :
    Except PyErr (List (LogRow × Nat)) :=
  if run_ids.isEmpty then .error (.valueError "No run ids provided.")
  else
    let filtered := st.logs.filter (fun e => run_ids.contains e.log_id)
    let ranked := filtered.map (fun e => (e, rowNumberDesc filtered e))
    let kept := ranked.filter (fun p => p.2 ≤ limit_per_run)
    .ok (sortPairsDesc kept)

/-- `__init__` assigns `self.conn`; no method ever assigns
`self.connection`, so `self.connection.acquire()` raises `AttributeError`. -/
def connectionAttrDefined : Bool := false

/-- `log_throughput`: reads the missing `self.connection` attribute, so it
always raises `AttributeError`; the insert is unreachable. -/
def log_throughput (st : PgState) (timestamp : Rat) (num_requests : Int)
    (request_type : String) : PgState × Except PyErr Unit :=
  if connectionAttrDefined then
    ({st with throughput :=
        st.throughput ++ [⟨timestamp.floor, num_requests, request_type⟩]},
     .ok ())
  else
    (st, .error (.attributeError
      "PostgresKVLoggingProvider object has no attribute connection"))

/-- `get_throughput_data`: also reads the missing `self.connection`
attribute, so it always raises `AttributeError`. -/
def get_throughput_data (st : PgState) (start_time end_time : Option Rat) :
    Except PyErr (List ThroughputRow) :=
  if connectionAttrDefined then
    .ok (if ratTruthy start_time && ratTruthy end_time then
      st.throughput.filter (fun r =>
        decide ((start_time.getD 0).floor ≤ r.timestamp) &&
        decide (r.timestamp ≤ (end_time.getD 0).floor))
    else st.throughput)
  else
    .error (.attributeError
      "PostgresKVLoggingProvider object has no attribute connection")

end PostgresKV

/-! ### `RedisKVLoggingProvider` -/

/-- One JSON log entry pushed to a per-run Redis list (timestamps are the
floats `datetime.now().timestamp()`). -/
structure RedisLogEntry where
  timestamp : Rat
  log_id : String
  key : String
  value : String
deriving DecidableEq, Repr

/-- One JSON entry of the run-info hash: the log fields plus `log_type`. -/
structure RedisInfoEntry where
  timestamp : Rat
  log_id : String
  key : String
  value : String
  log_type : String
deriving DecidableEq, Repr

/-- Contents of the Redis key space used by `RedisKVLoggingProvider`:
per-run event lists (`f"{log_key}:{run_id}"`, keyed here by the run id, head
= most recently pushed), the run-info hash, and the run-info sorted set
(member, score). -/
structure RedisState where
  logLists : List (String × List RedisLogEntry)
  infoHash : List (String × RedisInfoEntry)
  infoZSet : List (String × Rat)
deriving DecidableEq, Repr

/-- Insert-or-replace on an association list (Redis `hset` / `zadd`
semantics for a single field/member). -/
def upsert {β : Type} (l : List (String × β)) (k : String) (v : β) :
    List (String × β) :=
  if l.any (fun p => p.1 == k) then
    l.map (fun p => if p.1 == k then (k, v) else p)
  else l ++ [(k, v)]

/-- `lpush`: prepend an entry to the list stored at `k` (creating it). -/
def lpushAt (l : List (String × List RedisLogEntry)) (k : String)
    (e : RedisLogEntry) : List (String × List RedisLogEntry) :=
  if l.any (fun p => p.1 == k) then
    l.map (fun p => if p.1 == k then (k, e :: p.2) else p)
  else l ++ [(k, [e])]

/-- Score-descending order on sorted-set members. -/
def zMemberGe (a b : String × Rat) : Prop := b.2 ≤ a.2

instance : DecidableRel zMemberGe := fun _ _ =>
  inferInstanceAs (Decidable (_ ≤ _))

/-- The members of the sorted set in descending score order (the order
`zrevrange` ranges over). -/
def zrevMembers (z : List (String × Rat)) : List String :=
  (z.insertionSort zMemberGe).map (fun p => p.1)

/-- `zrevrange(key, start, stop)` for the non-negative indices used by
`get_run_info`: the inclusive slice `[start, stop]` of the descending-score
member list. -/
def zrevrange (z : List (String × Rat)) (start stop : Nat) : List String :=
  ((zrevMembers z).drop start).take (stop + 1 - start)

/-- `lrange(key, start, stop)` with Redis index semantics: negative indices
count from the end, the slice is inclusive, and out-of-range indices are
clamped.  `get_logs` calls it with `stop = limit_per_run - 1`, so
`limit_per_run = 0` yields `stop = -1`: the whole list. -/
def redisLrange {α : Type} (l : List α) (start stop : Int) : List α :=
  let n : Int := l.length
  let s : Int := if start < 0 then max (n + start) 0 else start
  let e : Int := if stop < 0 then n + stop else min stop (n - 1)
  if s > e then []
  else (l.drop s.toNat).take (e - s + 1).toNat

namespace RedisKV

/-- `log(log_id, key, value, is_info_log)`: validates info keys; info writes
`hset` the entry (with `log_type = value`) and `zadd` the id with the write
time as score; ordinary writes `lpush` the entry onto the per-run list.
Source message: "Metadata keys must contain the text 'type'". -/
def log (st : RedisState) (now : Rat) (log_id key value : String)
    (is_info_log : Bool) : RedisState × Except PyErr Unit :=
  if is_info_log then
    if !(strContains key "type") then
      (st, .error (.valueError "Metadata keys must contain the text type"))
    else
      let entry : RedisInfoEntry := ⟨now, log_id, key, value, value⟩
      ({st with
          infoHash := upsert st.infoHash log_id entry,
          infoZSet := upsert st.infoZSet log_id now},
       .ok ())
  else
    ({st with logLists := lpushAt st.logLists log_id ⟨now, log_id, key, value⟩},
     .ok ())

/-- The body of the inner `for log_id in log_ids` loop of `get_run_info`:
looks each id up in the hash (`json.loads(None)` raises `TypeError` when the
hash entry is missing), appends the entry when it passes the (truthy) filter,
and breaks as soon as the accumulated list reaches `limit`. -/
def processBatch (st : RedisState) (filt : Option String) (limit : Nat)
    (acc : List RunInfo) : List String → Except PyErr (List RunInfo)
  | [] => .ok acc
  | id :: rest =>
    match st.infoHash.lookup id with
    | none => .error (.typeError
        "the JSON object must be str, bytes or bytearray, not NoneType")
    | some entry =>
      let acc2 :=
        if optTruthy filt then
          if entry.log_type == filt.getD "" then
            acc ++ [⟨entry.log_id, entry.log_type⟩]
          else acc
        else acc ++ [⟨entry.log_id, entry.log_type⟩]
      if limit ≤ acc2.length then .ok acc2
      else processBatch st filt limit acc2 rest

/-- The `while len(run_info_list) < limit` pagination loop of
`get_run_info`: fetches batches of `count_per_batch = 100` ids from the
sorted set, stops on an empty batch, and otherwise advances `start` by 100.
Termination: a non-empty batch forces `start` to lie strictly inside the
member list, and `start` grows by 100 each iteration. -/
def getRunInfoLoop (st : RedisState) (limit : Nat) (filt : Option String)
    (acc : List RunInfo) (start : Nat) : Except PyErr (List RunInfo) :=
  if acc.length < limit then
    let ids := zrevrange st.infoZSet start (start + 99)
    if h : ids = [] then .ok acc
    else
      have hlt : start < (zrevMembers st.infoZSet).length := by
        by_contra hge
        push_neg at hge
        refine h ?_
        show ((zrevMembers st.infoZSet).drop start).take (start + 99 + 1 - start) = []
        rw [List.drop_eq_nil_iff.mpr hge]
        simp
      match processBatch st filt limit acc ids with
      | .error e => .error e
      | .ok acc2 => getRunInfoLoop st limit filt acc2 (start + 100)
  else .ok acc
termination_by (zrevMembers st.infoZSet).length - start
decreasing_by omega

/-- `get_run_info(limit, log_type_filter)`: runs the pagination loop from
`start = 0` with an empty accumulator and returns `run_info_list[:limit]`. -/
def get_run_info (st : RedisState) (limit : Nat) (filt : Option String) :
    Except PyErr (List RunInfo) :=
  (getRunInfoLoop st limit filt [] 0).map (fun l => l.take limit)

/-- `get_logs(run_ids, limit_per_run)`: no emptiness check; for each run id
in order, `lrange(key, 0, limit_per_run - 1)` of its per-run list, entries
decoded (identity on the structured state) and concatenated. -/
def get_logs (st : RedisState) (run_ids : List String) (limit_per_run : Nat) :
    Except PyErr (List RedisLogEntry) :=
  .ok (run_ids.flatMap (fun rid =>
    redisLrange ((st.logLists.lookup rid).getD []) 0 ((limit_per_run : Int) - 1)))

end RedisKV

/-! ### `KVLoggingSingleton.process_logs` -/

/-- One log record as consumed by `process_logs`: the dict fields it reads
(`timestamp`, `key`, `value`; `log_id` is carried along). -/
structure LogRecord where
  timestamp : String
  log_id : String
  key : String
  value : String
deriving DecidableEq, Repr

/-- The aggregate returned by `process_logs` (nested result dict flattened
into a record: `error_rates.stackedBarChartData.labels`,
`error_rates.stackedBarChartData.datasets` as (label, data) pairs,
`error_distribution.pieChartData` as (error_type, count) pairs). -/
structure Analytics where
  error_rates_labels : List String
  error_rates_datasets : List (String × List Nat)
  error_distribution_pie : List (String × Nat)
  retrieval_scores : List Json
  query_timestamps : List String
  vector_search_latencies : List Rat
  rag_generation_latencies : List Rat
  throughput_data : List ThroughputRow

/-- The mutable accumulators of the single pass of `process_logs`. -/
structure PLAcc where
  error_counts : List (String × Nat)
  error_timestamps : List (String × List (String × Nat))
  retrieval_scores : List Json
  query_timestamps : List String
  vector_search_latencies : List Rat
  rag_generation_latencies : List Rat
  throughput_data : List ThroughputRow

/-- All accumulators start empty. -/
def initPLAcc : PLAcc := ⟨[], [], [], [], [], [], []⟩

/-- `defaultdict(int)` increment, preserving key insertion order (Python
dicts iterate in insertion order). -/
def bumpCount (l : List (String × Nat)) (k : String) : List (String × Nat) :=
  if l.any (fun p => p.1 == k) then
    l.map (fun p => if p.1 == k then (p.1, p.2 + 1) else p)
  else l ++ [(k, 1)]

/-- `defaultdict(lambda: defaultdict(int))` nested increment. -/
def bumpDay (l : List (String × List (String × Nat))) (day code : String) :
    List (String × List (String × Nat)) :=
  if l.any (fun p => p.1 == day) then
    l.map (fun p => if p.1 == day then (p.1, bumpCount p.2 code) else p)
  else l ++ [(day, bumpCount [] code)]

/-- One element of the `search_results` loop body:
`result = json.loads(result_str); score = result["score"]`.  `json.loads`
requires a string argument (`TypeError` otherwise), a missing field is
`KeyError`, indexing a non-dict is `TypeError`; every failure here is caught
by the enclosing `except`. -/
def scoreOfElem (e : Json) : Except PyErr Json :=
  match e with
  | Json.str s =>
    (match jsonLoads s with
     | .error er => .error er
     | .ok (Json.obj fields) =>
       (match fields.lookup "score" with
        | some v => .ok v
        | none => .error (.keyError "score"))
     | .ok _ => .error (.typeError "indices must be integers"))
  | _ => .error (.typeError
      "the JSON object must be str, bytes or bytearray")

/-- The `for result_str in results_list` loop: appends each extracted score
to the (outer, mutable) score list; the first failing element raises out of
the loop into the `except`, keeping the scores already appended and
discarding the rest of the array. -/
def extractScores (scores : List Json) : List Json → List Json
  | [] => scores
  | e :: rest =>
    match scoreOfElem e with
    | .ok s => extractScores (scores ++ [s]) rest
    | .error _ => scores

/-- The whole `search_results` branch
(`try: results_list = json.loads(results); for ...; except: log, continue`):
an undecodable value, a non-array value (iterating it raises `TypeError`
inside the same `try`) or a failing element leaves the remaining scores
unappended but never propagates. -/
def searchResultsStep (scores : List Json) (value : String) : List Json :=
  match jsonLoads value with
  | .error _ => scores
  | .ok (Json.arr elems) => extractScores scores elems
  | .ok _ => scores

/-- The loop body of `process_logs` for one record: the `error` counter
chain (its timestamp parse failure propagates), then the
`search_results` / `search_query` / latency / `throughput` chain.  The two
latency branches apply `float(..)` without a `try` (failures propagate), and
the `throughput` branch indexes the string value with a string key, which
raises `TypeError`. -/
def processOne (acc : PLAcc) (log : LogRecord) : Except PyErr PLAcc := do
  let acc ←
    if log.key == "error" then
      match lastTripleDigit log.value with
      | none => pure acc
      | some code => do
        let day ← strptimeDate log.timestamp
        pure {acc with
          error_counts := bumpCount acc.error_counts code,
          error_timestamps := bumpDay acc.error_timestamps day code}
    else pure acc
  if log.key == "search_results" then
    pure {acc with
      retrieval_scores := searchResultsStep acc.retrieval_scores log.value}
  else if log.key == "search_query" then
    pure {acc with
      query_timestamps := acc.query_timestamps ++ [log.timestamp]}
  else if log.key == "vector_search_latency" then
    match pyFloat log.value with
    | some q => pure {acc with
        vector_search_latencies := acc.vector_search_latencies ++ [q]}
    | none => .error (.valueError "could not convert string to float")
  else if log.key == "rag_generation_latency" then
    match pyFloat log.value with
    | some q => pure {acc with
        rag_generation_latencies := acc.rag_generation_latencies ++ [q]}
    | none => .error (.valueError "could not convert string to float")
  else if log.key == "throughput" then
    .error (.typeError "string indices must be integers")
  else pure acc

/-- `KVLoggingSingleton.process_logs(logs)`: the single pass, then the chart
payloads.  The returned dict is rebuilt from the dicts in insertion order
(the locally computed, date-sorted `stacked_bar_data` is dead code): labels
are `str(day)` in first-seen order, one dataset per error code in first-seen
order with per-day data `error_dict.get(code, 0)`, and the pie data pairs
each code with its total count. -/
def process_logs (logs : List LogRecord) : Except PyErr Analytics := do
  let acc ← logs.foldlM processOne initPLAcc
  pure {
    error_rates_labels := acc.error_timestamps.map (fun p => p.1),
    error_rates_datasets := acc.error_counts.map (fun p =>
      ("Error Code " ++ p.1,
       acc.error_timestamps.map (fun q => (q.2.lookup p.1).getD 0))),
    error_distribution_pie := acc.error_counts,
    retrieval_scores := acc.retrieval_scores,
    query_timestamps := acc.query_timestamps,
    vector_search_latencies := acc.vector_search_latencies,
    rag_generation_latencies := acc.rag_generation_latencies,
    throughput_data := acc.throughput_data }

/-! ### `KVLoggingSingleton` (the facade, with the default local provider)

Every facade operation acquires a fresh provider with `async with
cls.get_instance()` and releases it on all exit paths; the default
configuration (`LoggingConfig.provider = "local"`) dispatches to
`LocalKVLoggingProvider`, so the facade is embedded over `LocalState`. -/

/-- The `try/except Exception` around the facade write paths: every provider
outcome, success or any raised exception, becomes a normal `None` return
(the exception is passed to `logger.error`). -/
def writeShield {α : Type} (r : Except PyErr α) : Except PyErr Unit :=
  match r with
  | .ok _ => .ok ()
  | .error _ => .ok ()

namespace KVFacade

/-- `KVLoggingSingleton.log`: delegates to the provider inside
`try/except Exception`; never raises. -/
def log (st : LocalState) (now log_id key value : String)
    (is_info_log : Bool) : LocalState × Except PyErr Unit :=
  let (st2, r) := LocalKV.log st now log_id key value is_info_log
  (st2, writeShield r)

/-- `KVLoggingSingleton.log_throughput`: delegates inside
`try/except Exception`; never raises. -/
def log_throughput (st : LocalState) (timestamp : Rat) (num_requests : Int)
    (request_type : String) : LocalState × Except PyErr Unit :=
  let (st2, r) := LocalKV.log_throughput st timestamp num_requests request_type
  (st2, writeShield r)

/-- `KVLoggingSingleton.get_run_info`: plain delegation, no `try`. -/
def get_run_info (st : LocalState) (limit : Nat)
    (log_type_filter : Option String) : List RunInfo :=
  LocalKV.get_run_info st limit log_type_filter

/-- `KVLoggingSingleton.get_logs`: plain delegation, no `try`. -/
def get_logs (st : LocalState) (run_ids : List String) (limit_per_run : Nat) :
    Except PyErr (List (LogRow × Nat)) :=
  LocalKV.get_logs st run_ids limit_per_run

/-- `KVLoggingSingleton.get_throughput_data`: plain delegation, no `try`. -/
def get_throughput_data (st : LocalState) (start_time end_time : Option Rat) :
    List ThroughputRow :=
  LocalKV.get_throughput_data st start_time end_time

/-- The parameter names of `KVLoggingSingleton.get_run_info` besides `cls`. -/
def getRunInfoParamNames : List String := ["limit", "log_type_filter"]

/-- Python keyword-argument binding: passing a keyword that is absent from
the callee signature raises `TypeError` before the callee body runs. -/
def bindKeyword (sig : List String) (kw : String) : Except PyErr Unit :=
  if sig.contains kw then .ok ()
  else .error (.typeError
    ("get_run_info() got an unexpected keyword argument " ++ kw))

/-- Projection of a returned SQL row dict onto the record fields that
`process_logs` reads (the rank column is ignored there). -/
def rowToRecord (p : LogRow × Nat) : LogRecord :=
  ⟨p.1.timestamp, p.1.log_id, p.1.key, p.1.value⟩

/-- The aggregate returned when no runs exist (the source returns a dict
with only the four keys `error_rates`, `error_distribution`,
`retrieval_scores`, `throughput_data`, all empty; modelled as the all-empty
record). -/
def emptyAnalytics : Analytics := ⟨[], [], [], [], [], [], [], []⟩

/-- `KVLoggingSingleton.get_analytics(pipeline_type)`: its first statement
is `cls.get_run_info(pipeline_type=pipeline_type)`, but `get_run_info` has
no parameter named `pipeline_type` (see `getRunInfoParamNames`; the source
carries a FIXME at this line), so keyword binding raises `TypeError` and the
rest of the method — run-id extraction, the empty-aggregate early return,
`get_logs(.., limit_per_run=100)`, `get_throughput_data()`, `process_logs`
and the throughput attachment — is unreachable.  The unreachable remainder
is completed below with the evident intent (`log_type_filter :=
pipeline_type`) so that the definition stays total and complete. -/
def get_analytics (st : LocalState) (pipeline_type : Option String) :
    Except PyErr Analytics :=
  match bindKeyword getRunInfoParamNames "pipeline_type" with
  | .error e => .error e
  | .ok _ =>
    let run_info := LocalKV.get_run_info st 10 pipeline_type
    let run_ids := run_info.map (fun i => i.run_id)
    if run_ids.isEmpty then .ok emptyAnalytics
    else
      match LocalKV.get_logs st run_ids 100 with
      | .error e => .error e
      | .ok logs =>
        let throughput := LocalKV.get_throughput_data st none none
        match process_logs (logs.map rowToRecord) with
        | .error e => .error e
        | .ok agg => .ok {agg with throughput_data := throughput}

end KVFacade

/-! ### Observable projections and store well-formedness used to compare
backends -/

/-- The backend-independent observable content of a SQL event row
(timestamp representations differ between backends, ids/keys/values do
not). -/
def obsOfRow (r : LogRow) : String × String × String := (r.log_id, r.key, r.value)

/-- The backend-independent observable content of a Redis event entry. -/
def obsOfEntry (e : RedisLogEntry) : String × String × String :=
  (e.log_id, e.key, e.value)

/-- The stored event rows of one run. -/
def rowsOfRun (table : List LogRow) (r : String) : List LogRow :=
  table.filter (fun e => e.log_id == r)

/-- The per-run Redis event list (`lrange` source), empty when absent. -/
def redisListOf (st : RedisState) (rid : String) : List RedisLogEntry :=
  (st.logLists.lookup rid).getD []

/-- Well-formedness of the Redis key space: every entry stored under the
per-run key of `rid` carries `log_id = rid` (guaranteed by `RedisKV.log`,
which pushes entries built from the key they are stored under). -/
def redisWfLogLists (st : RedisState) : Prop :=
  ∀ p ∈ st.logLists, ∀ e ∈ p.2, e.log_id = p.1

/-! ### Concrete scenario inputs used by counterexamples and witnesses -/

/-- A single stored event row of run `"r"`. -/
def c1row : LogRow := ⟨"1", "r", "k", "v"⟩

/-- A local store holding exactly `c1row`. -/
def c1local : LocalState := ⟨[c1row], [], []⟩

/-- The Redis counterpart of `c1row`. -/
def c1entry : RedisLogEntry := ⟨1, "r", "k", "v"⟩

/-- A Redis store holding exactly `c1entry` under run `"r"`. -/
def c1redis : RedisState := ⟨[("r", [c1entry])], [], []⟩

/-- Two stored rows of run `"r"`: the older one. -/
def c1wRowOld : LogRow := ⟨"1", "r", "k1", "v1"⟩

/-- Two stored rows of run `"r"`: the newer one. -/
def c1wRowNew : LogRow := ⟨"2", "r", "k2", "v2"⟩

/-- A local store holding the two rows of run `"r"` in write order. -/
def c1wLocal : List LogRow := [c1wRowOld, c1wRowNew]

/-- The Redis store matching `c1wLocal`: the per-run list is newest
first (as produced by `lpush` with increasing timestamps). -/
def c1wRedis : RedisState :=
  ⟨[("r", [⟨2, "r", "k2", "v2"⟩, ⟨1, "r", "k1", "v1"⟩])], [], []⟩

/-- One `error` record of the C8 analytics scenario. -/
def c8rec (ts : String) : LogRecord :=
  ⟨ts, "run1", "error", "Request failed with code 503"⟩

/-- The C8 scenario: three `503` errors on 2024-03-01, one on 2024-03-02. -/
def c8logs : List LogRecord :=
  [c8rec "2024-03-01 10:00:00", c8rec "2024-03-01 11:30:00",
   c8rec "2024-03-01 23:59:59", c8rec "2024-03-02 00:10:00"]

/-- An `error` record whose value contains no three-digit token. -/
def c8noCode : LogRecord :=
  ⟨"2024-03-02 01:00:00", "run1", "error", "connection reset by peer"⟩

/-- A `search_results` value: a JSON array of three JSON-encoded entries,
the second of which is not valid JSON
(`'["{\"score\": 0.9}", "nope", "{\"score\": 0.4}"]'`). -/
def c9value : String :=
  "[\"\x7b\\\"score\\\": 0.9\x7d\", \"nope\", \"\x7b\\\"score\\\": 0.4\x7d\"]"

/-- The `search_results` record carrying `c9value`. -/
def c9rec : LogRecord := ⟨"2024-03-01 10:00:00", "run1", "search_results", c9value⟩

/-- A `search_query` record processed after `c9rec`. -/
def c9query : LogRecord := ⟨"2024-03-01 11:00:00", "run1", "search_query", "what is r2r"⟩

/-! ## Theorems -/

/-- C2: `KVLoggingSingleton.get_analytics(pipeline_type)` is claimed to
fetch run metadata, bounded logs, and throughput and return the aggregate
"rather than failing"; in the code its first statement passes the keyword
`pipeline_type` to `get_run_info`, whose signature has only `limit` and
`log_type_filter`, so every call raises `TypeError` before any fetch (the
source line carries a FIXME).  The code contradicts the documented flow:
code bug. -/
theorem get_analytics_always_raises_type_error (st : LocalState)
    (pipeline_type : Option String) :
    KVFacade.get_analytics st pipeline_type =
      .error (.typeError
        "get_run_info() got an unexpected keyword argument pipeline_type") := rfl

/-- C3 counterexample: the claim says `get_logs([], N)` raises a validation
error on every backend, but `RedisKVLoggingProvider.get_logs` has no
emptiness check: on an empty store with `run_ids = []` and `N = 5` it
returns the empty list normally instead of raising. -/
theorem redis_get_logs_empty_run_ids_returns_ok :
    RedisKV.get_logs ⟨[], [], []⟩ [] 5 = .ok [] := rfl

/-- C3 amended: with an empty `run_ids` list, the local and Postgres
providers raise `ValueError("No run ids provided.")` for every limit, while
the Redis provider raises nothing and returns no data (the empty list). -/
theorem get_logs_empty_run_ids_amended (stL : LocalState) (stP : PgState)
    (stR : RedisState) (limit : Nat) :
    LocalKV.get_logs stL [] limit = .error (.valueError "No run ids provided.") ∧
    PostgresKV.get_logs stP [] limit = .error (.valueError "No run ids provided.") ∧
    RedisKV.get_logs stR [] limit = .ok [] := ⟨rfl, rfl, rfl⟩

/-- C4: the claim says `get_run_info(limit=K, log_type_filter)` succeeds on
every backend; `PostgresKVLoggingProvider.get_run_info` without a filter
builds a query ending in `LIMIT $2` while passing a single bind parameter,
so asyncpg rejects every unfiltered call — the documented behaviour is the
evident intent and the placeholder numbering a slip: code bug. -/
theorem postgres_get_run_info_unfiltered_raises (st : PgState) (limit : Nat) :
    PostgresKV.get_run_info st limit none =
      .error (.interfaceError
        "the server expects 2 arguments for this query, 1 was passed") := rfl

/-- C5: the claim's round trip requires `log_throughput` to succeed, but it
can never succeed: the local provider passes its three values as separate
positional arguments to `aiosqlite`'s `execute` (which takes one parameters
sequence), raising `TypeError`, and the Postgres provider reads the never
assigned `self.connection` attribute, raising `AttributeError` (the Redis
provider has no such method at all).  The spec's append/read round trip is
the evident intent: code bug. -/
theorem log_throughput_always_raises (stL : LocalState) (stP : PgState)
    (t : Rat) (n : Int) (r : String) :
    LocalKV.log_throughput stL t n r =
      (stL, .error (.typeError
        "execute() takes from 2 to 3 positional arguments but 5 were given")) ∧
    PostgresKV.log_throughput stP t n r =
      (stP, .error (.attributeError
        "PostgresKVLoggingProvider object has no attribute connection")) :=
  ⟨rfl, rfl⟩

/-- C6: the facade's write operations (`log`, `log_throughput`) run the
provider call inside `try/except Exception`, turning every provider
exception into a logged, normal return, while its read operations
(`get_run_info`, `get_logs`, `get_throughput_data`) delegate with no `try`,
so provider results — including failures — reach the caller unchanged. -/
theorem facade_error_isolation :
    (∀ e : PyErr, writeShield (α := Unit) (.error e) = .ok ()) ∧
    (∀ (st : LocalState) (now log_id key value : String) (b : Bool),
       (KVFacade.log st now log_id key value b).2 = .ok ()) ∧
    (∀ (st : LocalState) (t : Rat) (n : Int) (r : String),
       (KVFacade.log_throughput st t n r).2 = .ok ()) ∧
    (∀ (st : LocalState) (limit : Nat) (f : Option String),
       KVFacade.get_run_info st limit f = LocalKV.get_run_info st limit f) ∧
    (∀ (st : LocalState) (ids : List String) (lim : Nat),
       KVFacade.get_logs st ids lim = LocalKV.get_logs st ids lim) ∧
    (∀ (st : LocalState) (a b : Option Rat),
       KVFacade.get_throughput_data st a b =
         LocalKV.get_throughput_data st a b) := by
  refine ⟨fun e => rfl, ?_, ?_, fun st limit f => rfl, fun st ids lim => rfl,
    fun st a b => rfl⟩
  · intro st now log_id key value b
    cases hr : LocalKV.log st now log_id key value b with
    | mk st2 r => cases r <;> simp [KVFacade.log, hr, writeShield]
  · intro st t n r
    cases hr : LocalKV.log_throughput st t n r with
    | mk st2 r => cases r <;> simp [KVFacade.log_throughput, hr, writeShield]

/-- C7: on all three providers, an info-log write whose key does not contain
the substring `"type"` raises `ValueError` before any write is issued, so
both the event-log and run-info stores are left unchanged (the returned
state is the input state). -/
theorem info_log_key_without_type_raises_before_write
    (stL : LocalState) (stP : PgState) (stR : RedisState)
    (nowS : String) (nowR : Rat) (log_id key value : String)
    (h : strContains key "type" = false) :
    LocalKV.log stL nowS log_id key value true =
      (stL, .error (.valueError "Info log keys must contain the text type")) ∧
    PostgresKV.log stP nowS log_id key value true =
      (stP, .error (.valueError "Info log key must contain the string type.")) ∧
    RedisKV.log stR nowR log_id key value true =
      (stR, .error (.valueError "Metadata keys must contain the text type")) := by
  unfold LocalKV.log PostgresKV.log RedisKV.log
  simp [h]

/-- C7 witness: the key `"stage"` lacks `"type"`; the local provider rejects
the write and leaves the empty store unchanged. -/
theorem info_log_key_without_type_raises_before_write_witness :
    strContains "stage" "type" = false ∧
    LocalKV.log ⟨[], [], []⟩ "2024-01-01 00:00:00" "run1" "stage" "vector" true =
      (⟨[], [], []⟩,
       .error (.valueError "Info log keys must contain the text type")) :=
  ⟨by decide,
   (info_log_key_without_type_raises_before_write ⟨[], [], []⟩ ⟨[], [], []⟩
      ⟨[], [], []⟩ "2024-01-01 00:00:00" 0 "run1" "stage" "vector"
      (by decide)).1⟩

/-- C10: `RedisKVLoggingProvider.get_run_info` is total — the pagination
loop `getRunInfoLoop` is accepted by well-founded recursion on the number of
sorted-set members not yet ranged over, since a non-empty `zrevrange` batch
forces `start` to lie inside the member list and each iteration advances
`start` by the batch size 100, while an empty batch or a filled accumulator
exits — and the final `run_info_list[:limit]` truncation bounds the result
by `limit` whatever the filter discarded. -/
theorem redis_get_run_info_total_and_bounded (st : RedisState) (limit : Nat)
    (filt : Option String) :
    (match RedisKV.get_run_info st limit filt with
     | .ok l => l.length ≤ limit
     | .error _ => True) := by
  unfold RedisKV.get_run_info
  cases h : RedisKV.getRunInfoLoop st limit filt [] 0 with
  | error e => simp [Except.map, h]
  | ok l => simp [Except.map, h]

/-- C8: `process_logs` classifies each `error` record by the last
three-digit token of its value (via `lastTripleDigit`, the model of
`re.findall(r'\b\d{3}\b', ..)[-1]`), skipping records with no such token,
and keys days by `strptime(.., "%Y-%m-%d %H:%M:%S").date()`.  On the
scenario — three `"Request failed with code 503"` records on 2024-03-01 and
one on 2024-03-02 — the histogram labels are the two days in order with the
single dataset `"Error Code 503"` counting `[3, 1]`, and the pie data is the
single pair `("503", 4)`. -/
theorem process_logs_error_histogram :
    process_logs c8logs =
      .ok ⟨["2024-03-01", "2024-03-02"], [("Error Code 503", [3, 1])],
           [("503", 4)], [], [], [], [], []⟩ ∧
    process_logs [c8noCode] = .ok ⟨[], [], [], [], [], [], [], []⟩ ∧
    lastTripleDigit "Request failed with code 503" = some "503" ∧
    lastTripleDigit "error 404 then 503" = some "503" ∧
    lastTripleDigit "no status code here" = none ∧
    strptimeDate "2024-03-01 10:00:00" = .ok "2024-03-01" :=
  ⟨rfl, rfl, rfl, rfl, rfl, rfl⟩

/-- C9 counterexample: the claim says that with one malformed entry mixed
into the `search_results` array every well-formed entry is still extracted.
`c9value` decodes to the three entries `{"score": 0.9}`, `nope`,
`{"score": 0.4}`; since the `try` wraps the whole extraction loop, the
failure on `nope` aborts the loop, so only `0.9` is extracted and the
well-formed `0.4` after the malformed entry is lost (the claim expects
`[0.9, 0.4]`). -/
theorem search_results_midarray_failure_drops_tail :
    (process_logs [c9rec]).map (fun a => a.retrieval_scores) =
      .ok [Json.num (mkRat 9 10)] ∧
    (process_logs [c9rec]).map (fun a => a.retrieval_scores.length) = .ok 1 :=
  ⟨rfl, rfl⟩

/-- C9 amended: a JSON parse failure while handling a `search_results`
record is caught and the pass continues (a later `search_query` record is
still processed), but extraction of that record's array stops at the
malformed entry — entries before it are kept, entries after it are lost —
whereas a `vector_search_latency` or `rag_generation_latency` value that
does not parse as a float raises out of `process_logs` uncaught. -/
theorem search_results_caught_latency_uncaught (v : String)
    (h : pyFloat v = none) :
    (∃ agg, process_logs [c9rec, c9query] = .ok agg ∧
       agg.retrieval_scores = [Json.num (mkRat 9 10)] ∧
       agg.query_timestamps = ["2024-03-01 11:00:00"]) ∧
    process_logs [⟨"2024-03-01 10:00:00", "run1", "vector_search_latency", v⟩] =
      .error (.valueError "could not convert string to float") ∧
    process_logs [⟨"2024-03-01 10:00:00", "run1", "rag_generation_latency", v⟩] =
      .error (.valueError "could not convert string to float") := by
  refine ⟨⟨_, rfl, rfl, rfl⟩, ?_, ?_⟩
  · simp [process_logs, List.foldlM, processOne, h]
  · simp [process_logs, List.foldlM, processOne, h]

/-- C9 amended witness: `"abc"` does not parse as a float, and the latency
record carrying it makes `process_logs` raise. -/
theorem search_results_caught_latency_uncaught_witness :
    pyFloat "abc" = none ∧
    process_logs [⟨"2024-03-01 10:00:00", "run1", "vector_search_latency", "abc"⟩] =
      .error (.valueError "could not convert string to float") :=
  ⟨by decide, (search_results_caught_latency_uncaught "abc" (by decide)).2.1⟩
/-! ### Order lemmas for the timestamp comparison -/

/-- Characters with equal code points are equal. -/
theorem char_toNat_inj {a b : Char} (h : a.toNat = b.toNat) : a = b :=
  Char.ext (UInt32.ext h)

/-- `charsLtB` is irreflexive. -/
theorem charsLtB_irrefl : ∀ l : List Char, charsLtB l l = false
  | [] => rfl
  | a :: t => by simp [charsLtB, charsLtB_irrefl t]

/-- `charsLtB` is asymmetric. -/
theorem charsLtB_asymm : ∀ {a b : List Char},
    charsLtB a b = true → charsLtB b a = false
  | [], [], h => by simp [charsLtB] at h
  | [], _ :: _, _ => by simp [charsLtB]
  | _ :: _, [], h => by simp [charsLtB] at h
  | a :: as, b :: bs, h => by
    simp only [charsLtB] at h ⊢
    by_cases h1 : a.toNat < b.toNat
    · simp [h1, Nat.lt_asymm h1]
    · by_cases h2 : b.toNat < a.toNat
      · simp [h1, h2] at h
      · simp only [h1, h2, if_false] at h ⊢
        exact charsLtB_asymm h

/-- `charsLtB` is transitive. -/
theorem charsLtB_trans : ∀ {a b c : List Char},
    charsLtB a b = true → charsLtB b c = true → charsLtB a c = true
  | [], [], _, h1, _ => by simp [charsLtB] at h1
  | _ :: _, [], _, h1, _ => by simp [charsLtB] at h1
  | [], _ :: _, [], _, h2 => by simp [charsLtB] at h2
  | _ :: _, _ :: _, [], _, h2 => by simp [charsLtB] at h2
  | [], _ :: _, _ :: _, _, _ => by simp [charsLtB]
  | a :: as, b :: bs, c :: cs, h1, h2 => by
    simp only [charsLtB] at h1 h2 ⊢
    by_cases hab : a.toNat < b.toNat
    · by_cases hbc : b.toNat < c.toNat
      · have hac : a.toNat < c.toNat := Nat.lt_trans hab hbc
        simp [hac]
      · by_cases hcb : c.toNat < b.toNat
        · rw [if_neg hbc, if_pos hcb] at h2
          exact absurd h2 (by simp)
        · have hac : a.toNat < c.toNat := by omega
          simp [hac]
    · by_cases hba : b.toNat < a.toNat
      · rw [if_neg hab, if_pos hba] at h1
        exact absurd h1 (by simp)
      · rw [if_neg hab, if_neg hba] at h1
        by_cases hbc : b.toNat < c.toNat
        · have hac : a.toNat < c.toNat := by omega
          simp [hac]
        · by_cases hcb : c.toNat < b.toNat
          · rw [if_neg hbc, if_pos hcb] at h2
            exact absurd h2 (by simp)
          · rw [if_neg hbc, if_neg hcb] at h2
            have hac : ¬ a.toNat < c.toNat := by omega
            have hca : ¬ c.toNat < a.toNat := by omega
            rw [if_neg hac, if_neg hca]
            exact charsLtB_trans h1 h2

/-- Two lists neither of which precedes the other are equal. -/
theorem charsLtB_conn : ∀ {a b : List Char},
    charsLtB a b = false → charsLtB b a = false → a = b
  | [], [], _, _ => rfl
  | [], _ :: _, h1, _ => by simp [charsLtB] at h1
  | _ :: _, [], _, h2 => by simp [charsLtB] at h2
  | a :: as, b :: bs, h1, h2 => by
    simp only [charsLtB] at h1 h2
    by_cases hab : a.toNat < b.toNat
    · simp [hab] at h1
    · by_cases hba : b.toNat < a.toNat
      · simp [hab, hba] at h2
      · rw [if_neg hab, if_neg hba] at h1
        rw [if_neg hba, if_neg hab] at h2
        have he : a = b := char_toNat_inj (by omega)
        rw [he, charsLtB_conn h1 h2]

/-- `strLtB` is asymmetric. -/
theorem strLtB_asymm {a b : String} (h : strLtB a b = true) :
    strLtB b a = false := charsLtB_asymm h

/-- `strLtB` is irreflexive. -/
theorem strLtB_irrefl (a : String) : strLtB a a = false := charsLtB_irrefl a.data

/-- Strings neither of which precedes the other are equal. -/
theorem strEq_of_not_lt {a b : String} (h1 : strLtB a b = false)
    (h2 : strLtB b a = false) : a = b := String.ext (charsLtB_conn h1 h2)

/-- `strLeB` holds exactly when the reversed strict order fails. -/
theorem strLeB_eq_true_iff {a b : String} :
    strLeB a b = true ↔ strLtB b a = false := by
  unfold strLeB
  cases strLtB b a <;> simp

instance : IsTotal LogRow rowGe :=
  ⟨fun a b => by
    by_cases h : strLtB a.timestamp b.timestamp = true
    · right
      exact strLeB_eq_true_iff.mpr (strLtB_asymm h)
    · left
      exact strLeB_eq_true_iff.mpr (by simpa using h)⟩

instance : IsTrans LogRow rowGe :=
  ⟨fun a b c hab hbc => by
    have hab' : strLtB a.timestamp b.timestamp = false := strLeB_eq_true_iff.mp hab
    have hbc' : strLtB b.timestamp c.timestamp = false := strLeB_eq_true_iff.mp hbc
    refine strLeB_eq_true_iff.mpr ?_
    cases hac : strLtB a.timestamp c.timestamp with
    | false => rfl
    | true =>
      exfalso
      cases hba : strLtB b.timestamp a.timestamp with
      | true =>
        have h3 : strLtB b.timestamp c.timestamp = true :=
          charsLtB_trans hba hac
        rw [hbc'] at h3
        exact Bool.false_ne_true h3
      | false =>
        have he : a.timestamp = b.timestamp := strEq_of_not_lt hab' hba
        rw [he, hbc'] at hac
        exact Bool.false_ne_true hac⟩

instance : IsTotal (LogRow × Nat) pairRowGe :=
  ⟨fun a b => IsTotal.total (r := rowGe) a.1 b.1⟩

instance : IsTrans (LogRow × Nat) pairRowGe :=
  ⟨fun a b c hab hbc => IsTrans.trans (r := rowGe) a.1 b.1 c.1 hab hbc⟩

instance : IsAntisymm LogRow rowGt :=
  ⟨fun a b h1 h2 => absurd h2 (by
    have h3 : strLtB a.timestamp b.timestamp = false := strLtB_asymm h1
    simp [rowGt, h3])⟩
/-! ### Window-rank lemmas -/

/-- The window rank is invariant under permuting the partition. -/
theorem rowNumberDesc_perm {b1 b2 : List LogRow} (h : b1.Perm b2) (x : LogRow) :
    rowNumberDesc b1 x = rowNumberDesc b2 x := by
  unfold rowNumberDesc
  rw [← List.countP_eq_length_filter, ← List.countP_eq_length_filter,
    h.countP_eq]

/-- For a row of run `r`, the window rank over a mixed base equals the rank
over the rows of run `r` alone. -/
theorem rowNumberDesc_restrict (base : List LogRow) (r : String) (x : LogRow)
    (hx : x.log_id = r) :
    rowNumberDesc base x = rowNumberDesc (rowsOfRun base r) x := by
  unfold rowNumberDesc rowsOfRun
  congr 1
  rw [List.filter_filter]
  refine congrArg List.length (List.filter_congr ?_)
  intro y _
  rw [hx]
  cases hyr : (y.log_id == r) <;> simp [hyr]

/-- Rows of run `r` among the rows selected by `run_ids` are exactly the rows
of run `r`, when `r` is one of the requested ids. -/
theorem rowsOfRun_filter_contains (table : List LogRow) (run_ids : List String)
    (r : String) (hmem : r ∈ run_ids) :
    rowsOfRun (table.filter (fun e => run_ids.contains e.log_id)) r =
      rowsOfRun table r := by
  unfold rowsOfRun
  rw [List.filter_filter]
  refine List.filter_congr ?_
  intro e _
  cases her : (e.log_id == r) with
  | false => simp
  | true =>
    have he : e.log_id = r := by simpa using her
    simp [he, hmem]

/-- On a strictly newest-first list, the rows of window rank at most `n` are
exactly the first `n` rows. -/
theorem filter_rank_le_eq_take (r : String) :
    ∀ (l : List LogRow), (∀ y ∈ l, y.log_id = r) → List.Sorted rowGt l →
    ∀ n : Nat, l.filter (fun x => rowNumberDesc l x ≤ n) = l.take n := by
  intro l
  induction l with
  | nil => intro _ _ n; simp
  | cons a tl ih =>
    intro huni hsort n
    have hsort' : List.Sorted rowGt tl := hsort.of_cons
    have hrel : ∀ y ∈ tl, rowGt a y := List.rel_of_sorted_cons hsort
    have hhd : rowNumberDesc (a :: tl) a = 1 := by
      unfold rowNumberDesc
      have hnil : (a :: tl).filter
          (fun y => y.log_id == a.log_id && strLtB a.timestamp y.timestamp)
            = [] := by
        rw [List.filter_eq_nil_iff]
        intro y hy
        rcases List.mem_cons.mp hy with h | h
        · subst h
          simp [strLtB_irrefl]
        · have h2 : strLtB a.timestamp y.timestamp = false :=
            strLtB_asymm (hrel y h)
          simp [h2]
      rw [hnil]
      rfl
    have htl : ∀ x ∈ tl,
        rowNumberDesc (a :: tl) x = rowNumberDesc tl x + 1 := by
      intro x hx
      unfold rowNumberDesc
      rw [List.filter_cons]
      have h1 : a.log_id = r := huni a (List.mem_cons_self a tl)
      have h2 : x.log_id = r := huni x (List.mem_cons_of_mem _ hx)
      have h3 : strLtB x.timestamp a.timestamp = true := hrel x hx
      have hpa : (a.log_id == x.log_id && strLtB x.timestamp a.timestamp)
          = true := by
        simp [h1, h2, h3]
      rw [if_pos hpa]
      simp only [List.length_cons]
      omega
    cases n with
    | zero =>
      rw [List.take_zero, List.filter_eq_nil_iff]
      intro x _
      simp [rowNumberDesc]
    | succ k =>
      rw [List.filter_cons]
      have hkeep : (decide (rowNumberDesc (a :: tl) a ≤ k + 1)) = true := by
        rw [hhd]
        simp
      rw [if_pos hkeep, List.take_succ_cons]
      congr 1
      rw [List.filter_congr (fun x hx => show
            (decide (rowNumberDesc (a :: tl) x ≤ k + 1))
              = (decide (rowNumberDesc tl x ≤ k)) from by
          rw [htl x hx]
          exact decide_eq_decide.mpr (by omega))]
      exact ih (fun y hy => huni y (List.mem_cons_of_mem _ hy)) hsort' k
/-! ### The top-N-per-run property of the windowed SQL query -/

/-- A newest-first-sorted list with pairwise distinct timestamps is strictly
sorted. -/
theorem sorted_ge_ne_imp_gt {l : List LogRow} (h1 : List.Sorted rowGe l)
    (h2 : l.Pairwise (fun a b => a.timestamp ≠ b.timestamp)) :
    List.Sorted rowGt l := by
  refine (List.Pairwise.and h1 h2).imp ?_
  rintro a b ⟨hge, hne⟩
  have hab : strLtB a.timestamp b.timestamp = false := strLeB_eq_true_iff.mp hge
  cases hlt : strLtB b.timestamp a.timestamp with
  | true => exact hlt
  | false => exact absurd (strEq_of_not_lt hab hlt) hne

/-- Every row of run `r` carries `log_id = r`. -/
theorem rowsOfRun_uniform (table : List LogRow) (r : String) :
    ∀ y ∈ rowsOfRun table r, y.log_id = r := by
  intro y hy
  have := (List.mem_filter.mp hy).2
  simpa using this

/-- The windowed `get_logs` query of the local provider restricted to one
requested run `r` returns exactly the `limit` most recent rows of `r`,
newest first. -/
theorem local_get_logs_run_extract (table : List LogRow)
    (run_ids : List String) (limit : Nat) (r : String) (hmem : r ∈ run_ids)
    (hdist : (rowsOfRun table r).Pairwise
      (fun a b => a.timestamp ≠ b.timestamp)) :
    ∃ res, LocalKV.get_logs ⟨table, [], []⟩ run_ids limit = .ok res ∧
      (res.filter (fun p => p.1.log_id == r)).map Prod.fst =
        (sortRowsDesc (rowsOfRun table r)).take limit := by
  have hne : run_ids.isEmpty = false := by
    cases run_ids with
    | nil => cases hmem
    | cons a l => rfl
  have hrun : LocalKV.get_logs ⟨table, [], []⟩ run_ids limit =
      .ok (sortPairsDesc
        (((table.filter (fun e => run_ids.contains e.log_id)).map
            (fun e => (e, rowNumberDesc
              (table.filter (fun e => run_ids.contains e.log_id)) e))).filter
          (fun p => decide (p.2 ≤ limit)))) := by
    unfold LocalKV.get_logs
    rw [if_neg (by simp [hne])]
  refine ⟨_, hrun, ?_⟩
  -- Abbreviations (as plain terms).
  -- F: the rows of run r; filtered: the rows of all requested runs.
  have huniF : ∀ y ∈ rowsOfRun table r, y.log_id = r := rowsOfRun_uniform table r
  have permF : (rowsOfRun table r).Perm (sortRowsDesc (rowsOfRun table r)) :=
    (List.perm_insertionSort _ _).symm
  have hsortGe : List.Sorted rowGe (sortRowsDesc (rowsOfRun table r)) :=
    List.sorted_insertionSort rowGe (rowsOfRun table r)
  have hdistS : (sortRowsDesc (rowsOfRun table r)).Pairwise
      (fun a b => a.timestamp ≠ b.timestamp) :=
    (List.Perm.pairwise_iff (fun h => h.symm) permF).mp hdist
  have hsortGt : List.Sorted rowGt (sortRowsDesc (rowsOfRun table r)) :=
    sorted_ge_ne_imp_gt hsortGe hdistS
  have huniS : ∀ y ∈ sortRowsDesc (rowsOfRun table r), y.log_id = r := by
    intro y hy
    exact huniF y (permF.symm.subset hy)
  -- Step 1: push filter and map-fst through the ranking map.
  have e1 : ((((table.filter (fun e => run_ids.contains e.log_id)).map
        (fun e => (e, rowNumberDesc
          (table.filter (fun e => run_ids.contains e.log_id)) e))).filter
        (fun p => decide (p.2 ≤ limit))).filter
        (fun p => p.1.log_id == r)).map Prod.fst =
      (((table.filter (fun e => run_ids.contains e.log_id)).filter
          (fun e => decide (rowNumberDesc
            (table.filter (fun e => run_ids.contains e.log_id)) e ≤ limit))).filter
        (fun e => e.log_id == r)) := by
    rw [List.filter_map, List.filter_map, List.map_map]
    simp [Function.comp_def]
  -- Step 2: commute the two row filters and restrict the rank base to run r.
  have e2 : (((table.filter (fun e => run_ids.contains e.log_id)).filter
        (fun e => decide (rowNumberDesc
          (table.filter (fun e => run_ids.contains e.log_id)) e ≤ limit))).filter
        (fun e => e.log_id == r)) =
      (rowsOfRun table r).filter
        (fun e => decide (rowNumberDesc (rowsOfRun table r) e ≤ limit)) := by
    rw [List.filter_filter]
    rw [List.filter_congr (l := table.filter (fun e => run_ids.contains e.log_id))
      (q := fun e => decide (rowNumberDesc
        (table.filter (fun e => run_ids.contains e.log_id)) e ≤ limit)
          && (e.log_id == r))
      (fun e _ => by rw [Bool.and_comm])]
    rw [← List.filter_filter]
    rw [show ((table.filter (fun e => run_ids.contains e.log_id)).filter
          (fun e => e.log_id == r)) =
        rowsOfRun (table.filter (fun e => run_ids.contains e.log_id)) r from rfl]
    rw [rowsOfRun_filter_contains table run_ids r hmem]
    refine List.filter_congr ?_
    intro e he
    have her : e.log_id = r := huniF e he
    rw [rowNumberDesc_restrict _ r e her,
      rowsOfRun_filter_contains table run_ids r hmem]
  -- Step 3: on the sorted copy the rank filter is a take.
  have e3 : (sortRowsDesc (rowsOfRun table r)).filter
        (fun e => decide (rowNumberDesc (rowsOfRun table r) e ≤ limit)) =
      (sortRowsDesc (rowsOfRun table r)).take limit := by
    rw [List.filter_congr (fun e _ => by
      rw [rowNumberDesc_perm permF e])]
    exact filter_rank_le_eq_take r _ huniS hsortGt limit
  -- Permutation from the result to the take.
  have perm1 : (sortPairsDesc
      (((table.filter (fun e => run_ids.contains e.log_id)).map
          (fun e => (e, rowNumberDesc
            (table.filter (fun e => run_ids.contains e.log_id)) e))).filter
        (fun p => decide (p.2 ≤ limit)))).Perm
      (((table.filter (fun e => run_ids.contains e.log_id)).map
          (fun e => (e, rowNumberDesc
            (table.filter (fun e => run_ids.contains e.log_id)) e))).filter
        (fun p => decide (p.2 ≤ limit))) :=
    List.perm_insertionSort _ _
  have hLperm : (((sortPairsDesc
        (((table.filter (fun e => run_ids.contains e.log_id)).map
            (fun e => (e, rowNumberDesc
              (table.filter (fun e => run_ids.contains e.log_id)) e))).filter
          (fun p => decide (p.2 ≤ limit)))).filter
        (fun p => p.1.log_id == r)).map Prod.fst).Perm
      ((sortRowsDesc (rowsOfRun table r)).take limit) := by
    refine (List.Perm.map Prod.fst (List.Perm.filter _ perm1)).trans ?_
    rw [e1, e2, ← e3]
    exact permF.filter _
  -- Sortedness of both sides.
  have hsortL : List.Sorted rowGt (((sortPairsDesc
        (((table.filter (fun e => run_ids.contains e.log_id)).map
            (fun e => (e, rowNumberDesc
              (table.filter (fun e => run_ids.contains e.log_id)) e))).filter
          (fun p => decide (p.2 ≤ limit)))).filter
        (fun p => p.1.log_id == r)).map Prod.fst) := by
    have hsp : List.Sorted pairRowGe (sortPairsDesc
        (((table.filter (fun e => run_ids.contains e.log_id)).map
            (fun e => (e, rowNumberDesc
              (table.filter (fun e => run_ids.contains e.log_id)) e))).filter
          (fun p => decide (p.2 ≤ limit)))) :=
      List.sorted_insertionSort pairRowGe _
    have hspf := hsp.filter (fun p => p.1.log_id == r)
    have hge : List.Sorted rowGe (((sortPairsDesc
          (((table.filter (fun e => run_ids.contains e.log_id)).map
              (fun e => (e, rowNumberDesc
                (table.filter (fun e => run_ids.contains e.log_id)) e))).filter
            (fun p => decide (p.2 ≤ limit)))).filter
          (fun p => p.1.log_id == r)).map Prod.fst) :=
      List.pairwise_map.mpr hspf
    have hneL : (((sortPairsDesc
          (((table.filter (fun e => run_ids.contains e.log_id)).map
              (fun e => (e, rowNumberDesc
                (table.filter (fun e => run_ids.contains e.log_id)) e))).filter
            (fun p => decide (p.2 ≤ limit)))).filter
          (fun p => p.1.log_id == r)).map Prod.fst).Pairwise
        (fun a b => a.timestamp ≠ b.timestamp) :=
      (List.Perm.pairwise_iff (fun h => h.symm) hLperm).mpr
        (List.Pairwise.sublist (List.take_sublist _ _) hdistS)
    exact sorted_ge_ne_imp_gt hge hneL
  have hsortR : List.Sorted rowGt
      ((sortRowsDesc (rowsOfRun table r)).take limit) :=
    List.Pairwise.sublist (List.take_sublist _ _) hsortGt
  exact List.eq_of_perm_of_sorted hLperm hsortL hsortR
/-! ### The top-N-per-run property of the Redis provider -/

/-- For the indices `get_logs` uses (`start = 0`, `stop = limit - 1` with
`limit ≥ 1`), `lrange` is a prefix take. -/
theorem redisLrange_take {α : Type} (l : List α) (limit : Nat)
    (hlim : 1 ≤ limit) :
    redisLrange l 0 ((limit : Int) - 1) = l.take limit := by
  unfold redisLrange
  have h0 : ¬ ((0 : Int) < 0) := by omega
  have hstop : ¬ ((limit : Int) - 1 < 0) := by omega
  simp only [h0, hstop, if_false]
  cases l with
  | nil =>
    rw [if_pos (by simp only [List.length_nil]; omega)]
    simp
  | cons x xs =>
    rw [if_neg (by simp only [List.length_cons]; omega)]
    simp only [Int.toNat_zero, List.drop_zero]
    have hN : (min ((limit : Int) - 1) ((x :: xs).length - 1) - 0 + 1).toNat =
        min limit (x :: xs).length := by
      simp only [List.length_cons]
      omega
    rw [hN]
    rcases le_total limit (x :: xs).length with h | h
    · rw [min_eq_left h]
    · rw [min_eq_right h, List.take_length, List.take_of_length_le h]

/-- A successful association-list lookup exhibits a member pair. -/
theorem lookup_pair_mem {β : Type} :
    ∀ (l : List (String × β)) (k : String) (v : β),
      l.lookup k = some v → (k, v) ∈ l
  | [], _, _, h => by simp [List.lookup] at h
  | (k', v') :: t, k, v, h => by
    rw [List.lookup] at h
    by_cases hk : (k == k') = true
    · have hkk : k = k' := by simpa using hk
      rw [hk] at h
      have hv : v' = v := by simpa using h
      subst hkk
      subst hv
      exact List.mem_cons_self _ _
    · rw [Bool.not_eq_true] at hk
      rw [hk] at h
      exact List.mem_cons_of_mem _ (lookup_pair_mem t k v h)

/-- A `flatMap` over a duplicate-free list whose function vanishes away from
`r` collapses to its value at `r`. -/
theorem flatMap_single {α β : Type} :
    ∀ (l : List α) (g : α → List β) (r : α), l.Nodup → r ∈ l →
      (∀ x ∈ l, x ≠ r → g x = []) → l.flatMap g = g r
  | [], _, _, _, hmem, _ => absurd hmem (List.not_mem_nil _)
  | a :: t, g, r, hnd, hmem, hz => by
    rcases List.mem_cons.mp hmem with h | h
    · subst h
      have ht : t.flatMap g = [] := by
        rw [List.flatMap_eq_nil_iff]
        intro x hx
        exact hz x (List.mem_cons_of_mem _ hx)
          (fun he => (List.nodup_cons.mp hnd).1 (he ▸ hx))
      rw [List.flatMap_cons, ht, List.append_nil]
    · have ha : g a = [] := hz a (List.mem_cons_self _ _)
        (fun he => (List.nodup_cons.mp hnd).1 (he ▸ h))
      rw [List.flatMap_cons, ha, List.nil_append]
      exact flatMap_single t g r (List.nodup_cons.mp hnd).2 h
        (fun x hx hne => hz x (List.mem_cons_of_mem _ hx) hne)

/-- Entries of a well-formed Redis store carry the run id they are stored
under. -/
theorem redisWf_entry_id (st : RedisState) (hwf : redisWfLogLists st) :
    ∀ rid : String, ∀ e ∈ redisListOf st rid, e.log_id = rid := by
  intro rid e he
  unfold redisListOf at he
  cases hl : st.logLists.lookup rid with
  | none => rw [hl] at he; simp at he
  | some lst =>
    rw [hl] at he
    exact hwf (rid, lst) (lookup_pair_mem _ _ _ hl) e he

/-- `RedisKV.get_logs` restricted to one requested run `r` returns exactly
the `limit` most recently pushed entries of `r`, in list (newest-first)
order. -/
theorem redis_get_logs_run_extract (st : RedisState) (run_ids : List String)
    (limit : Nat) (r : String) (hnd : run_ids.Nodup) (hmem : r ∈ run_ids)
    (hwf : redisWfLogLists st) (hlim : 1 ≤ limit) :
    ∃ res, RedisKV.get_logs st run_ids limit = .ok res ∧
      res.filter (fun e => e.log_id == r) = (redisListOf st r).take limit := by
  have hwf' := redisWf_entry_id st hwf
  refine ⟨_, rfl, ?_⟩
  rw [List.filter_flatMap]
  have hz : ∀ x ∈ run_ids, x ≠ r →
      ((redisLrange ((st.logLists.lookup x).getD []) 0
          ((limit : Int) - 1)).filter (fun e => e.log_id == r)) = [] := by
    intro x _ hxr
    rw [List.filter_eq_nil_iff]
    intro e he
    rw [redisLrange_take _ limit hlim] at he
    have hsub : e ∈ redisListOf st x := List.take_subset _ _ he
    have hid := hwf' x e hsub
    simp [hid, hxr]
  rw [flatMap_single run_ids _ r hnd hmem hz]
  rw [redisLrange_take _ limit hlim]
  have hself : ∀ e ∈ (redisListOf st r).take limit,
      (e.log_id == r) = true := by
    intro e he
    have hsub : e ∈ redisListOf st r := List.take_subset _ _ he
    simp [hwf' r e hsub]
  exact List.filter_eq_self.mpr hself
/-- The Postgres windowed query computes exactly what the local one does
over the same table contents (the two query texts differ only in the text
cast of `log_id`, which is the identity in this model). -/
theorem postgres_get_logs_eq_local (table : List LogRow) (li : List InfoRow)
    (tp : List ThroughputRow) (run_ids : List String) (limit : Nat) :
    PostgresKV.get_logs ⟨table, li, tp⟩ run_ids limit =
      LocalKV.get_logs ⟨table, li, tp⟩ run_ids limit := rfl

/-- C1 counterexample: the claim quantifies over every `run_ids` list and
every `limit_per_run`, but the backends observably differ outside
duplicate-free ids and positive limits.  With `run_ids = ["r", "r"]` and
`limit_per_run = 1` over a store holding one record of run `"r"` (at least
`limit_per_run` records), Redis returns the record twice — two records for
the requested run, not exactly one — while the SQL variant returns it once;
and with `limit_per_run = 0`, Redis calls `lrange(key, 0, -1)` and returns
the whole list (one record instead of exactly zero) while the SQL variant
returns none. -/
theorem get_logs_duplicate_ids_and_zero_limit_diverge :
    RedisKV.get_logs c1redis ["r", "r"] 1 = .ok [c1entry, c1entry] ∧
    LocalKV.get_logs c1local ["r", "r"] 1 = .ok [(c1row, 1)] ∧
    RedisKV.get_logs c1redis ["r"] 0 = .ok [c1entry] ∧
    LocalKV.get_logs c1local ["r"] 0 = .ok [] := ⟨rfl, rfl, rfl, rfl⟩

/-- C1 amended: over every duplicate-free `run_ids`, every
`limit_per_run ≥ 1`, and every requested run `r` having at least
`limit_per_run` stored ordinary records (with distinct write timestamps
within the run, and with the Redis per-run list holding the same records
newest-first), all three `get_logs` implementations succeed, the Postgres
result equals the local result, and each backend returns for run `r`
exactly the `limit_per_run` most recent records newest-first — the same
records in the same order across backends (compared on their
backend-independent fields). -/
theorem get_logs_top_n_per_run_amended
    (table : List LogRow) (st : RedisState) (run_ids : List String)
    (limit : Nat) (r : String)
    (hnd : run_ids.Nodup) (hmem : r ∈ run_ids) (hlim : 1 ≤ limit)
    (hdist : (rowsOfRun table r).Pairwise
      (fun a b => a.timestamp ≠ b.timestamp))
    (hcount : limit ≤ (rowsOfRun table r).length)
    (hwf : redisWfLogLists st)
    (hcorr : (redisListOf st r).map obsOfEntry =
      (sortRowsDesc (rowsOfRun table r)).map obsOfRow) :
    ∃ resL resP resR,
      LocalKV.get_logs ⟨table, [], []⟩ run_ids limit = .ok resL ∧
      PostgresKV.get_logs ⟨table, [], []⟩ run_ids limit = .ok resP ∧
      RedisKV.get_logs st run_ids limit = .ok resR ∧
      resP = resL ∧
      (resL.filter (fun p => p.1.log_id == r)).map Prod.fst =
        (sortRowsDesc (rowsOfRun table r)).take limit ∧
      ((resL.filter (fun p => p.1.log_id == r)).map Prod.fst).length = limit ∧
      resR.filter (fun e => e.log_id == r) = (redisListOf st r).take limit ∧
      (resR.filter (fun e => e.log_id == r)).length = limit ∧
      (resR.filter (fun e => e.log_id == r)).map obsOfEntry =
        ((resL.filter (fun p => p.1.log_id == r)).map Prod.fst).map
          obsOfRow := by
  obtain ⟨resL, hL, hLrun⟩ :=
    local_get_logs_run_extract table run_ids limit r hmem hdist
  obtain ⟨resR, hR, hRrun⟩ :=
    redis_get_logs_run_extract st run_ids limit r hnd hmem hwf hlim
  have hlenSort : (sortRowsDesc (rowsOfRun table r)).length =
      (rowsOfRun table r).length :=
    (List.perm_insertionSort _ _).length_eq
  have hlenL : ((resL.filter (fun p => p.1.log_id == r)).map Prod.fst).length
      = limit := by
    rw [hLrun, List.length_take, hlenSort]
    omega
  have hlenList : (redisListOf st r).length = (rowsOfRun table r).length := by
    have hc := congrArg List.length hcorr
    simpa [List.length_map, hlenSort] using hc
  have hlenR : (resR.filter (fun e => e.log_id == r)).length = limit := by
    rw [hRrun, List.length_take]
    omega
  have hobs : (resR.filter (fun e => e.log_id == r)).map obsOfEntry =
      ((resL.filter (fun p => p.1.log_id == r)).map Prod.fst).map
        obsOfRow := by
    rw [hRrun, hLrun, List.map_take, List.map_take, hcorr]
  exact ⟨resL, resL, resR, hL, by rw [postgres_get_logs_eq_local, hL], hR,
    rfl, hLrun, hlenL, hRrun, hlenR, hobs⟩

/-- C1 amended witness: two records of run `"r"` with distinct timestamps,
matching Redis contents, `run_ids = ["r"]`, `limit_per_run = 1`. -/
theorem get_logs_top_n_per_run_amended_witness :
    (["r"] : List String).Nodup ∧ "r" ∈ (["r"] : List String) ∧ (1 : Nat) ≤ 1 ∧
    (rowsOfRun c1wLocal "r").Pairwise
      (fun a b => a.timestamp ≠ b.timestamp) ∧
    1 ≤ (rowsOfRun c1wLocal "r").length ∧
    redisWfLogLists c1wRedis ∧
    (redisListOf c1wRedis "r").map obsOfEntry =
      (sortRowsDesc (rowsOfRun c1wLocal "r")).map obsOfRow ∧
    (∃ resL resP resR,
      LocalKV.get_logs ⟨c1wLocal, [], []⟩ ["r"] 1 = .ok resL ∧
      PostgresKV.get_logs ⟨c1wLocal, [], []⟩ ["r"] 1 = .ok resP ∧
      RedisKV.get_logs c1wRedis ["r"] 1 = .ok resR ∧
      resP = resL ∧
      (resL.filter (fun p => p.1.log_id == "r")).map Prod.fst =
        (sortRowsDesc (rowsOfRun c1wLocal "r")).take 1 ∧
      ((resL.filter (fun p => p.1.log_id == "r")).map Prod.fst).length = 1 ∧
      resR.filter (fun e => e.log_id == "r") =
        (redisListOf c1wRedis "r").take 1 ∧
      (resR.filter (fun e => e.log_id == "r")).length = 1 ∧
      (resR.filter (fun e => e.log_id == "r")).map obsOfEntry =
        ((resL.filter (fun p => p.1.log_id == "r")).map Prod.fst).map
          obsOfRow) :=
  ⟨by decide, by decide, by decide, by decide, by decide,
   by unfold redisWfLogLists; decide, by decide,
   get_logs_top_n_per_run_amended c1wLocal c1wRedis ["r"] 1 "r" (by decide)
     (by decide) (by decide) (by decide) (by decide)
     (by unfold redisWfLogLists; decide) (by decide)⟩
